import Mathlib

/-!
The MultiSink element.

A shallow embedding of `libAvKys/Plugins/MultiSink/src/multisinkelement.cpp`.

The element is a thin adapter in front of a dynamically loaded media writer.
The writer is an external collaborator: it is represented by an arbitrary
state type `σ` together with a record `MediaWriter σ` of its operations
(state transformers for the mutating calls, observers for the queries), and
the plugin loader by a function `loadSubModule : String → Option σ`.
Every call the element makes on a writer is also appended to a ghost log
(`calls`), so that statements about which call happens, how often, and in
which order can be made.

Modelling conventions:
* queries on a writer do not change the writer;
* whatever a writer does inside one of its own operations (including the
  signals it emits from there) is part of that operation's state transformer;
  no handler connected in this file writes a field of the element;
* the signal-to-signal connections are data (`writerConnections`), and
  `republish` reads off what the element emits for a signal of the writer.
-/

namespace MultiSink

/-! ## Data model -/

/-- Pipeline state of an element (`AkElement::ElementState`). -/
inductive ElementState where
  | ElementStateNull
  | ElementStatePaused
  | ElementStatePlaying
  deriving DecidableEq, Repr

/-- A `QVariant` value (only carried around, never inspected). -/
abbrev QVariant := String

/-- The type `QVariantMap`: key/value mapping; `isEmpty()` is emptiness of the list. -/
abbrev QVariantMap := List (String × QVariant)

/-- The type `QVariantList`. -/
abbrev QVariantList := List QVariant

/-- Capability descriptor of a stream (`AkCaps`); only handed to the writer. -/
abbrev AkCaps := String

/-- A media packet: the stream index it belongs to and its payload. -/
structure AkPacket where
  index : Int
  data : List Nat
  deriving DecidableEq, Repr

/-- The default-constructed packet `AkPacket()`: it carries no data.  (The
index of a default-constructed packet is never read by the element.) -/
def AkPacket.empty : AkPacket := ⟨-1, []⟩

/-- The container `QMap<QString, T>` as a list of key/value entries with unique keys. -/
structure QMap (α : Type) where
  entries : List (String × α)
  deriving DecidableEq, Repr

/-- The method `QMap::clear()`. -/
def QMap.clear {α : Type} (_m : QMap α) : QMap α := ⟨[]⟩

/-- The lookup `QMap::value(key)`: the stored value, or a default-constructed one when
the key is absent. -/
def QMap.value {α : Type} [Inhabited α] (m : QMap α) (key : String) : α :=
  (m.entries.lookup key).getD default

/-- The assignment `map[key] = v`: replaces the entry of `key`. -/
def QMap.assign {α : Type} (m : QMap α) (key : String) (v : α) : QMap α :=
  ⟨(key, v) :: m.entries.filter (fun p => p.1 != key)⟩

/-! ## Signals and connections -/

/-- The change signals declared by the writer and by the element. -/
inductive SignalKind where
  | locationChanged
  | defaultFormatChanged
  | outputFormatChanged
  | formatOptionsChanged
  | codecOptionsChanged
  | streamsChanged
  | formatsBlackListChanged
  | codecsBlackListChanged
  | supportedFormatsChanged
  deriving DecidableEq, Repr

/-- The arguments a signal carries. -/
inductive Payload where
  | string (s : String)
  | stringList (l : List String)
  | variantMap (m : QVariantMap)
  | variantList (l : QVariantList)
  | keyedMap (key : String) (m : QVariantMap)
  deriving DecidableEq, Repr

/-- One emission of a signal. -/
structure Signal where
  kind : SignalKind
  payload : Payload
  deriving DecidableEq, Repr

/-- The signal-to-signal connections `QObject::connect(writer, &MediaWriter::X,
self, &MultiSinkElement::Y)` made by `codecLibUpdated` (lines 396-427), in
source order, as pairs (writer signal X, element signal Y). -/
def writerConnections : List (SignalKind × SignalKind) :=
  [ (.locationChanged, .locationChanged),
    (.defaultFormatChanged, .defaultFormatChanged),
    (.outputFormatChanged, .outputFormatChanged),
    (.formatOptionsChanged, .formatOptionsChanged),
    (.codecOptionsChanged, .codecOptionsChanged),
    (.streamsChanged, .streamsChanged),
    (.formatsBlackListChanged, .formatsBlackListChanged),
    (.codecsBlackListChanged, .formatsBlackListChanged) ]

/-- What the element emits when the loaded writer emits `s`: one element
signal per connection whose sender is the kind of `s`, with the arguments
passed through unchanged (this is what a Qt signal-to-signal connection
does). -/
def republish (s : Signal) : List Signal :=
  (writerConnections.filter (fun c => c.1 == s.kind)).map (fun c => ⟨c.2, s.payload⟩)

/-! ## The writer interface -/

/-- Operations of a media writer with internal state `σ` (`mediawriter.h` is
not among the sources; these are the members the element calls).  Queries
observe the state; the other calls transform it. -/
structure MediaWriter (σ : Type) where
  location : σ → String
  defaultFormat : σ → String
  outputFormat : σ → String
  streams : σ → QVariantList
  formatsBlackList : σ → List String
  codecsBlackList : σ → List String
  formatOptions : σ → QVariantList
  codecOptions : σ → Int → QVariantList
  supportedFormats : σ → List String
  fileExtensions : σ → String → List String
  formatDescription : σ → String → String
  /-- The call `supportedCodecs(format)` of the catalog rebuild. -/
  supportedCodecs : σ → String → List String
  /-- The call `supportedCodecs(format, type)`. -/
  supportedCodecsOfType : σ → String → String → List String
  defaultCodec : σ → String → String → String
  codecDescription : σ → String → String
  codecType : σ → String → String
  defaultCodecParams : σ → String → QVariantMap
  addStream : σ → Int → AkCaps → QVariantMap → QVariantMap × σ
  updateStream : σ → Int → QVariantMap → QVariantMap × σ
  clearStreams : σ → σ
  setLocation : σ → String → σ
  enqueuePacket : σ → AkPacket → σ
  init : σ → Bool × σ
  uninit : σ → σ

/-- A call made by the element on a writer (or on the plugin loader), as
recorded in the ghost log. -/
inductive Call where
  | loadSubModule (codecLib : String)
  | init
  | uninit
  | setLocation (location : String)
  | addStream (streamIndex : Int) (streamCaps : AkCaps) (codecParams : QVariantMap)
  | updateStream (index : Int) (codecParams : QVariantMap)
  | clearStreams
  | enqueuePacket (packet : AkPacket)
  | supportedFormats
  | fileExtensions (format : String)
  | formatDescription (format : String)
  | supportedCodecs (format : String)
  | codecDescription (codec : String)
  | codecType (codec : String)
  | defaultCodecParams (codec : String)
  deriving DecidableEq, Repr

/-- Whether a call is one of the read-only catalog queries of the rebuild. -/
def Call.isCatalogQuery : Call → Bool
  | .supportedFormats => true
  | .fileExtensions _ => true
  | .formatDescription _ => true
  | .supportedCodecs _ => true
  | .codecDescription _ => true
  | .codecType _ => true
  | .defaultCodecParams _ => true
  | _ => false

/-- The element: the base-class state (`AkElement::state()`), the fields of
`MultiSinkElementPrivate`, and two ghost fields (`calls`, `emitted`). -/
structure MultiSinkElement (σ : Type) where
  state : ElementState
  m_location : String
  m_mediaWriter : Option σ
  m_inputStreams : List Int
  m_supportedFormats : List String
  m_fileExtensions : QMap (List String)
  m_formatDescription : QMap String
  m_supportedCodecs : List String
  m_codecDescription : QMap String
  m_codecType : QMap String
  m_defaultCodecParams : QMap QVariantMap
  /-- Ghost: the calls that the statements of this file make on a writer,
  oldest first.  A slot call that is delivered through a signal connection
  while a writer operation runs (the writer emits `locationChanged` from
  inside its `setLocation`, which lines 396-399 and 428-431 route back to
  `setLocation`) is part of that operation and not a separate entry. -/
  calls : List Call
  /-- Ghost: every signal emitted by an `emit` statement of the element,
  oldest first. -/
  emitted : List Signal

/-- A freshly constructed private part: default-constructed members, state
Null, before the constructor body runs. -/
def MultiSinkElement.fresh (σ : Type) : MultiSinkElement σ :=
  { state := .ElementStateNull, m_location := "", m_mediaWriter := none,
    m_inputStreams := [], m_supportedFormats := [], m_fileExtensions := ⟨[]⟩,
    m_formatDescription := ⟨[]⟩, m_supportedCodecs := [], m_codecDescription := ⟨[]⟩,
    m_codecType := ⟨[]⟩, m_defaultCodecParams := ⟨[]⟩, calls := [], emitted := [] }

section Operations

variable {σ : Type} (W : MediaWriter σ) (loadSubModule : String → Option σ)

/-! ### Queries -/

/-- The getter `MultiSinkElement::location`. -/
def location (e : MultiSinkElement σ) : String := e.m_location

/-- The getter `MultiSinkElement::defaultFormat`. -/
def defaultFormat (e : MultiSinkElement σ) : String :=
  match e.m_mediaWriter with
  | none => ""
  | some w => W.defaultFormat w

/-- The getter `MultiSinkElement::supportedFormats`. -/
def supportedFormats (e : MultiSinkElement σ) : List String := e.m_supportedFormats

/-- The getter `MultiSinkElement::outputFormat`. -/
def outputFormat (e : MultiSinkElement σ) : String :=
  match e.m_mediaWriter with
  | none => ""
  | some w => W.outputFormat w

/-- The getter `MultiSinkElement::streams`. -/
def streams (e : MultiSinkElement σ) : QVariantList :=
  match e.m_mediaWriter with
  | none => []
  | some w => W.streams w

/-- The getter `MultiSinkElement::formatsBlackList`. -/
def formatsBlackList (e : MultiSinkElement σ) : List String :=
  match e.m_mediaWriter with
  | none => []
  | some w => W.formatsBlackList w

/-- The getter `MultiSinkElement::codecsBlackList`. -/
def codecsBlackList (e : MultiSinkElement σ) : List String :=
  match e.m_mediaWriter with
  | none => []
  | some w => W.codecsBlackList w

/-- The getter `MultiSinkElement::fileExtensions`. -/
def fileExtensions (e : MultiSinkElement σ) (format : String) : List String :=
  e.m_fileExtensions.value format

/-- The getter `MultiSinkElement::formatDescription`. -/
def formatDescription (e : MultiSinkElement σ) (format : String) : String :=
  e.m_formatDescription.value format

/-- The getter `MultiSinkElement::formatOptions`. -/
def formatOptions (e : MultiSinkElement σ) : QVariantList :=
  match e.m_mediaWriter with
  | none => []
  | some w => W.formatOptions w

/-- The getter `MultiSinkElement::supportedCodecs`. -/
def supportedCodecs (e : MultiSinkElement σ) (format type : String) : List String :=
  match e.m_mediaWriter with
  | none => []
  | some w => W.supportedCodecsOfType w format type

/-- The getter `MultiSinkElement::defaultCodec`. -/
def defaultCodec (e : MultiSinkElement σ) (format type : String) : String :=
  match e.m_mediaWriter with
  | none => ""
  | some w => W.defaultCodec w format type

/-- The getter `MultiSinkElement::codecDescription`. -/
def codecDescription (e : MultiSinkElement σ) (codec : String) : String :=
  e.m_codecDescription.value codec

/-- The getter `MultiSinkElement::codecType`. -/
def codecType (e : MultiSinkElement σ) (codec : String) : String :=
  e.m_codecType.value codec

/-- The getter `MultiSinkElement::defaultCodecParams`. -/
def defaultCodecParams (e : MultiSinkElement σ) (codec : String) : QVariantMap :=
  e.m_defaultCodecParams.value codec

/-- The getter `MultiSinkElement::codecOptions`. -/
def codecOptions (e : MultiSinkElement σ) (index : Int) : QVariantList :=
  match e.m_mediaWriter with
  | none => []
  | some w => W.codecOptions w index

/-! ### Stream registration and packet delivery -/

/-- The method `MultiSinkElement::addStream`: the result and the element afterwards. -/
def addStream (streamIndex : Int) (streamCaps : AkCaps) (codecParams : QVariantMap)
    (e : MultiSinkElement σ) : QVariantMap × MultiSinkElement σ :=
  match e.m_mediaWriter with
  | none => ([], e)
  | some w =>
    let r := W.addStream w streamIndex streamCaps codecParams
    let stream := r.1
    let e1 := { e with m_mediaWriter := some r.2,
                       calls := e.calls ++ [Call.addStream streamIndex streamCaps codecParams] }
    if !stream.isEmpty then
      (stream, { e1 with m_inputStreams := e1.m_inputStreams ++ [streamIndex] })
    else
      (stream, e1)

/-- The method `MultiSinkElement::updateStream`. -/
def updateStream (index : Int) (codecParams : QVariantMap)
    (e : MultiSinkElement σ) : QVariantMap × MultiSinkElement σ :=
  match e.m_mediaWriter with
  | none => ([], e)
  | some w =>
    let r := W.updateStream w index codecParams
    (r.1, { e with m_mediaWriter := some r.2,
                   calls := e.calls ++ [Call.updateStream index codecParams] })

/-- The method `MultiSinkElement::clearStreams`. -/
def clearStreams (e : MultiSinkElement σ) : MultiSinkElement σ :=
  let e1 :=
    match e.m_mediaWriter with
    | none => e
    | some w => { e with m_mediaWriter := some (W.clearStreams w),
                         calls := e.calls ++ [Call.clearStreams] }
  { e1 with m_inputStreams := [] }

/-- The method `MultiSinkElement::iStream`: the returned packet and the element
afterwards. -/
def iStream (packet : AkPacket) (e : MultiSinkElement σ) : AkPacket × MultiSinkElement σ :=
  if e.state ≠ .ElementStatePlaying then
    (AkPacket.empty, e)
  else
    match e.m_mediaWriter with
    | none => (AkPacket.empty, e)
    | some w =>
      if e.m_inputStreams.contains packet.index then
        (AkPacket.empty, { e with m_mediaWriter := some (W.enqueuePacket w packet),
                                  calls := e.calls ++ [Call.enqueuePacket packet] })
      else
        (AkPacket.empty, e)

/-! ### State machine -/

/-- Modelled from the spec: the base-class setter `AkElement::setState`
(`akelement.cpp` is not among the sources).  Section 6 describes it as
`setState(state) -> bool` where false signals rejection with the state
unchanged; section 4.4 lets every transition that the element does not veto
go through.  The setter stores the requested state and reports whether this
changed anything. -/
def AkElement.setState (state : ElementState) (e : MultiSinkElement σ) :
    Bool × MultiSinkElement σ :=
  (decide (e.state ≠ state), { e with state := state })

/-- The method `MultiSinkElement::setState`: the returned flag and the element
afterwards. -/
def setState (state : ElementState) (e : MultiSinkElement σ) : Bool × MultiSinkElement σ :=
  match e.m_mediaWriter with
  | none => (false, e)
  | some w =>
    let curState := e.state
    if curState = .ElementStateNull then
      if state ≠ .ElementStateNull then
        let r := W.init w
        let e1 := { e with m_mediaWriter := some r.2, calls := e.calls ++ [Call.init] }
        if !r.1 then (false, e1) else AkElement.setState state e1
      else
        AkElement.setState state e
    else
      if state = .ElementStateNull then
        AkElement.setState state
          { e with m_mediaWriter := some (W.uninit w), calls := e.calls ++ [Call.uninit] }
      else
        AkElement.setState state e

/-- The setter `MultiSinkElement::setLocation`.  The emitted `locationChanged` reaches
the writer slot `setLocation` through the connection of lines 428-431 when a
writer is loaded. -/
def setLocation (location : String) (e : MultiSinkElement σ) : MultiSinkElement σ :=
  if e.m_location = location then e
  else
    let e1 := { e with m_location := location,
                       emitted := e.emitted ++ [Signal.mk .locationChanged (.string location)] }
    match e1.m_mediaWriter with
    | none => e1
    | some w => { e1 with m_mediaWriter := some (W.setLocation w location),
                          calls := e1.calls ++ [Call.setLocation location] }

/-! ### Back-end swap and catalog rebuild -/

/-- Body of the inner loop of `codecLibUpdated` (lines 385-393) for one
codec of writer `w`. -/
def pullCodec (w : σ) (e : MultiSinkElement σ) (codec : String) : MultiSinkElement σ :=
  if !e.m_supportedCodecs.contains codec then
    { e with
        m_supportedCodecs := e.m_supportedCodecs ++ [codec],
        m_codecDescription := e.m_codecDescription.assign codec (W.codecDescription w codec),
        m_codecType := e.m_codecType.assign codec (W.codecType w codec),
        m_defaultCodecParams :=
          e.m_defaultCodecParams.assign codec (W.defaultCodecParams w codec),
        calls := e.calls ++
          [Call.codecDescription codec, Call.codecType codec, Call.defaultCodecParams codec] }
  else e

/-- First half of the body of the outer loop of `codecLibUpdated` (lines
378-382) for one format of writer `w`. -/
def formatStep (w : σ) (e : MultiSinkElement σ) (format : String) : MultiSinkElement σ :=
  { e with
    m_supportedFormats := e.m_supportedFormats ++ [format],
    m_fileExtensions := e.m_fileExtensions.assign format (W.fileExtensions w format),
    m_formatDescription := e.m_formatDescription.assign format (W.formatDescription w format),
    calls := e.calls ++
      [Call.fileExtensions format, Call.formatDescription format, Call.supportedCodecs format] }

/-- Body of the outer loop of `codecLibUpdated` (lines 378-393) for one
format of writer `w`: the format itself, then each of its codecs. -/
def pullFormat (w : σ) (e : MultiSinkElement σ) (format : String) : MultiSinkElement σ :=
  (W.supportedCodecs w format).foldl (pullCodec W w) (formatStep W w e format)

/-- The cache reset of lines 369-375. -/
def clearCatalog (e : MultiSinkElement σ) : MultiSinkElement σ :=
  { e with
      m_supportedFormats := [],
      m_fileExtensions := e.m_fileExtensions.clear,
      m_formatDescription := e.m_formatDescription.clear,
      m_supportedCodecs := [],
      m_codecDescription := e.m_codecDescription.clear,
      m_codecType := e.m_codecType.clear,
      m_defaultCodecParams := e.m_defaultCodecParams.clear }

/-- The catalog rebuild of lines 369-394 from writer `w`. -/
def rebuildCatalog (w : σ) (e : MultiSinkElement σ) : MultiSinkElement σ :=
  let e1 := clearCatalog e
  let e2 := { e1 with calls := e1.calls ++ [Call.supportedFormats] }
  (W.supportedFormats w).foldl (pullFormat W w) e2

/-- The method `MultiSinkElementPrivate::codecLibUpdated`.  `loadSubModule` stands for
`MultiSinkElement::loadSubModule("MultiSink", codecLib)`: the state of the
newly created writer, or `none` when the plugin cannot be loaded. -/
def codecLibUpdated (codecLib : String) (e : MultiSinkElement σ) : MultiSinkElement σ :=
  let state := e.state
  let e1 := (setState W .ElementStateNull e).2
  let location :=
    match e1.m_mediaWriter with
    | none => ""
    | some w => W.location w
  let e2 := { e1 with m_mediaWriter := loadSubModule codecLib,
                      calls := e1.calls ++ [Call.loadSubModule codecLib] }
  match e2.m_mediaWriter with
  | none => e2
  | some w =>
    let e3 := rebuildCatalog W w e2
    let e4 := { e3 with m_mediaWriter := some (W.setLocation w location),
                        calls := e3.calls ++ [Call.setLocation location] }
    let e5 := { e4 with
      emitted := e4.emitted ++
        [Signal.mk .supportedFormatsChanged (.stringList (supportedFormats e4))] }
    (setState W state e5).2

/-- The location `codecLibUpdated` saves in its local variable (lines
357-360): the location of the writer that is about to be replaced, read after
the element was brought to Null. -/
def savedLocation (e : MultiSinkElement σ) : String :=
  match (setState W .ElementStateNull e).2.m_mediaWriter with
  | none => ""
  | some w => W.location w

/-- The element after lines 354-364 of `codecLibUpdated`: brought to Null,
with the writer replaced by whatever the loader returned. -/
def afterLoad (codecLib : String) (e : MultiSinkElement σ) : MultiSinkElement σ :=
  { (setState W .ElementStateNull e).2 with
      m_mediaWriter := loadSubModule codecLib,
      calls := (setState W .ElementStateNull e).2.calls ++ [Call.loadSubModule codecLib] }

/-- The element after lines 369-438 of `codecLibUpdated` when the loader
returned the writer `w`: catalog rebuilt, saved location set on the new
writer, `supportedFormatsChanged` emitted. -/
def afterAttach (codecLib : String) (w : σ) (e : MultiSinkElement σ) : MultiSinkElement σ :=
  { rebuildCatalog W w (afterLoad W loadSubModule codecLib e) with
      m_mediaWriter := some (W.setLocation w (savedLocation W e)),
      calls := (rebuildCatalog W w (afterLoad W loadSubModule codecLib e)).calls
        ++ [Call.setLocation (savedLocation W e)],
      emitted := (rebuildCatalog W w (afterLoad W loadSubModule codecLib e)).emitted ++
        [Signal.mk .supportedFormatsChanged
          (.stringList (rebuildCatalog W w (afterLoad W loadSubModule codecLib e)).m_supportedFormats)] }

/-- The constructor `MultiSinkElement::MultiSinkElement()`; `codecLib` is the
value of `m_settings.codecLib()`. -/
def construct (codecLib : String) : MultiSinkElement σ :=
  codecLibUpdated W loadSubModule codecLib (MultiSinkElement.fresh σ)

/-! ### Sequences of operations -/

/-- The two registry operations of the element. -/
inductive StreamOp where
  | addStream (streamIndex : Int) (streamCaps : AkCaps) (codecParams : QVariantMap)
  | clearStreams
  deriving DecidableEq, Repr

/-- Perform one registry operation. -/
def applyStreamOp (e : MultiSinkElement σ) : StreamOp → MultiSinkElement σ
  | .addStream i caps params => (addStream W i caps params e).2
  | .clearStreams => clearStreams W e

/-- Perform a sequence of registry operations, first to last. -/
def runStreamOps (ops : List StreamOp) (e : MultiSinkElement σ) : MultiSinkElement σ :=
  ops.foldl (applyStreamOp W) e

/-- The operations of the element that change it. -/
inductive Op where
  | addStream (streamIndex : Int) (streamCaps : AkCaps) (codecParams : QVariantMap)
  | updateStream (index : Int) (codecParams : QVariantMap)
  | clearStreams
  | iStream (packet : AkPacket)
  | setState (state : ElementState)
  | setLocation (location : String)
  | codecLibUpdated (codecLib : String)
  deriving DecidableEq, Repr

/-- Perform one operation. -/
def applyOp (e : MultiSinkElement σ) : Op → MultiSinkElement σ
  | .addStream i caps params => (addStream W i caps params e).2
  | .updateStream i params => (updateStream W i params e).2
  | .clearStreams => clearStreams W e
  | .iStream packet => (iStream W packet e).2
  | .setState state => (setState W state e).2
  | .setLocation l => setLocation W l e
  | .codecLibUpdated codecLib => codecLibUpdated W loadSubModule codecLib e

/-- The element reached from its constructor by a sequence of operations. -/
def reach (codecLib : String) (ops : List Op) : MultiSinkElement σ :=
  ops.foldl (applyOp W loadSubModule) (construct W loadSubModule codecLib)

end Operations

/-! ## Specification-side definitions -/

/-- First-occurrence-order deduplication, as the specification words it:
every identifier is kept at its first occurrence and dropped afterwards. -/
def dedupFirst : List String → List String
  | [] => []
  | x :: xs => x :: (dedupFirst xs).filter (fun y => y != x)

/-- State of a small concrete writer: which plugin it is, its output
location, whether `init` will succeed, whether it is open, the stream indices
it was given and the packets it received. -/
structure DemoWriter where
  plugin : String
  location : String
  initOk : Bool
  opened : Bool
  streamIndices : List Int
  queue : List AkPacket
  deriving DecidableEq, Repr

/-- Operations of the concrete writer.  It accepts every stream; the "ffmpeg"
plugin offers two formats that share codecs, every other plugin one format. -/
def demoWriter : MediaWriter DemoWriter where
  location := fun w => w.location
  defaultFormat := fun _ => "webm"
  outputFormat := fun _ => "webm"
  streams := fun w => w.streamIndices.map toString
  formatsBlackList := fun _ => []
  codecsBlackList := fun _ => []
  formatOptions := fun _ => []
  codecOptions := fun _ _ => []
  supportedFormats := fun w => if w.plugin = "ffmpeg" then ["webm", "mkv"] else ["ogg"]
  fileExtensions := fun _ f => [f]
  formatDescription := fun _ f => "format " ++ f
  supportedCodecs := fun _ f =>
    if f = "webm" then ["vp8", "vorbis"]
    else if f = "mkv" then ["h264", "vorbis", "vp8"]
    else ["theora", "vorbis"]
  supportedCodecsOfType := fun _ f _ => if f = "webm" then ["vp8"] else ["h264"]
  defaultCodec := fun _ _ _ => "vp8"
  codecDescription := fun _ c => "codec " ++ c
  codecType := fun _ c => if c = "vorbis" then "audio" else "video"
  defaultCodecParams := fun _ c => [("codec", c)]
  addStream := fun w i _ params =>
    (("index", toString i) :: params, { w with streamIndices := w.streamIndices ++ [i] })
  updateStream := fun w _ params => (params, w)
  clearStreams := fun w => { w with streamIndices := [] }
  setLocation := fun w l => { w with location := l }
  enqueuePacket := fun w p => { w with queue := w.queue ++ [p] }
  init := fun w => (w.initOk, { w with opened := w.initOk })
  uninit := fun w => { w with opened := false }

/-- Plugin loader for the examples: two plugins can be loaded (the second one
never manages to open its output), every other name fails to load. -/
def demoLoad (codecLib : String) : Option DemoWriter :=
  if codecLib = "ffmpeg" then some ⟨"ffmpeg", "", true, false, [], []⟩
  else if codecLib = "gstreamer" then some ⟨"gstreamer", "", false, false, [], []⟩
  else none

/-- An element whose constructor loaded the "ffmpeg" plugin. -/
def demoElement : MultiSinkElement DemoWriter := construct demoWriter demoLoad "ffmpeg"

/-- The element `demoElement` after `setLocation("out.webm")`, `addStream(0)`
and `setState(Playing)`. -/
def demoPlaying : MultiSinkElement DemoWriter :=
  (setState demoWriter .ElementStatePlaying
    (addStream demoWriter 0 "video/x-raw" [] (setLocation demoWriter "out.webm" demoElement)).2).2

/-- An element whose constructor loaded the "gstreamer" plugin, whose `init`
fails. -/
def demoFailing : MultiSinkElement DemoWriter := construct demoWriter demoLoad "gstreamer"

/-- A variant of the concrete writer whose `uninit` also forgets the output
location (closing the output resets the writer's configuration). -/
def forgetfulWriter : MediaWriter DemoWriter :=
  { demoWriter with uninit := fun w => { w with opened := false, location := "" } }

/-- An element on the forgetful writer after construction with "ffmpeg",
`setLocation("out.webm")`, `addStream(0)` and `setState(Playing)`. -/
def forgetfulPlaying : MultiSinkElement DemoWriter :=
  (setState forgetfulWriter .ElementStatePlaying
    (addStream forgetfulWriter 0 "video/x-raw" []
      (setLocation forgetfulWriter "out.webm"
        (construct forgetfulWriter demoLoad "ffmpeg"))).2).2

/-! ## Theorems -/

section Theorems

variable {σ : Type} (W : MediaWriter σ) (loadSubModule : String → Option σ)

/-! ### Maps -/

theorem mem_dedupFirst (l : List String) (c : String) : c ∈ dedupFirst l ↔ c ∈ l := by
  induction l with
  | nil => simp [dedupFirst]
  | cons x xs ih =>
    by_cases h : c = x
    · simp [dedupFirst, h]
    · simp [dedupFirst, List.mem_filter, ih, h]

theorem foldl_invariant {α β : Type} (P : β → Prop) (f : β → α → β)
    (hstep : ∀ b a, P b → P (f b a)) (l : List α) (b : β) (hb : P b) :
    P (l.foldl f b) := by
  induction l generalizing b with
  | nil => exact hb
  | cons a t ih => exact ih (f b a) (hstep b a hb)

theorem pullCodec_of_mem (w : σ) (e : MultiSinkElement σ) (c : String)
    (h : c ∈ e.m_supportedCodecs) : pullCodec W w e c = e := by
  simp [pullCodec, h]

theorem pullCodec_of_not_mem (w : σ) (e : MultiSinkElement σ) (c : String)
    (h : c ∉ e.m_supportedCodecs) :
    pullCodec W w e c =
      { e with
        m_supportedCodecs := e.m_supportedCodecs ++ [c],
        m_codecDescription := e.m_codecDescription.assign c (W.codecDescription w c),
        m_codecType := e.m_codecType.assign c (W.codecType w c),
        m_defaultCodecParams := e.m_defaultCodecParams.assign c (W.defaultCodecParams w c),
        calls := e.calls ++
          [Call.codecDescription c, Call.codecType c, Call.defaultCodecParams c] } := by
  simp [pullCodec, h]

/-- An invariant of both loop bodies is an invariant of the whole double loop. -/
theorem pullFormats_invariant (w : σ) (P : MultiSinkElement σ → Prop)
    (hcodec : ∀ e c, P e → P (pullCodec W w e c))
    (hformat : ∀ e f, P e → P (formatStep W w e f))
    (l : List String) (e : MultiSinkElement σ) (he : P e) :
    P (l.foldl (pullFormat W w) e) := by
  apply foldl_invariant P _ _ l e he
  intro b f hb
  exact foldl_invariant P _ hcodec _ _ (hformat b f hb)

/-- The rebuild touches only the caches and the ghost log. -/
theorem rebuildCatalog_frame (w : σ) (e : MultiSinkElement σ) :
    (rebuildCatalog W w e).state = e.state
    ∧ (rebuildCatalog W w e).m_location = e.m_location
    ∧ (rebuildCatalog W w e).m_mediaWriter = e.m_mediaWriter
    ∧ (rebuildCatalog W w e).m_inputStreams = e.m_inputStreams
    ∧ (rebuildCatalog W w e).emitted = e.emitted := by
  apply pullFormats_invariant W w
    (fun x => x.state = e.state ∧ x.m_location = e.m_location
      ∧ x.m_mediaWriter = e.m_mediaWriter ∧ x.m_inputStreams = e.m_inputStreams
      ∧ x.emitted = e.emitted)
  · intro b c hb
    by_cases h : c ∈ b.m_supportedCodecs
    · rw [pullCodec_of_mem W w b c h]; exact hb
    · rw [pullCodec_of_not_mem W w b c h]; exact hb
  · intro b f hb
    exact hb
  · exact ⟨rfl, rfl, rfl, rfl, rfl⟩

/-- The rebuild only appends catalog queries to the ghost log. -/
theorem rebuildCatalog_calls (w : σ) (e : MultiSinkElement σ) :
    ∃ pulls : List Call, (rebuildCatalog W w e).calls = e.calls ++ pulls
      ∧ ∀ c ∈ pulls, c.isCatalogQuery = true := by
  apply pullFormats_invariant W w
    (fun x => ∃ pulls : List Call, x.calls = e.calls ++ pulls
      ∧ ∀ c ∈ pulls, c.isCatalogQuery = true)
  · intro b c hb
    by_cases h : c ∈ b.m_supportedCodecs
    · rw [pullCodec_of_mem W w b c h]; exact hb
    · rw [pullCodec_of_not_mem W w b c h]
      obtain ⟨pulls, hp, hq⟩ := hb
      refine ⟨pulls ++ [Call.codecDescription c, Call.codecType c, Call.defaultCodecParams c],
        by simp [hp], ?_⟩
      intro x hx
      rcases List.mem_append.1 hx with h1 | h1
      · exact hq x h1
      · simp at h1
        rcases h1 with h1 | h1 | h1 <;> subst h1 <;> rfl
  · intro b f hb
    obtain ⟨pulls, hp, hq⟩ := hb
    refine ⟨pulls ++ [Call.fileExtensions f, Call.formatDescription f, Call.supportedCodecs f],
      by simp [formatStep, hp], ?_⟩
    intro x hx
    rcases List.mem_append.1 hx with h1 | h1
    · exact hq x h1
    · simp at h1
      rcases h1 with h1 | h1 | h1 <;> subst h1 <;> rfl
  · refine ⟨[Call.supportedFormats], rfl, ?_⟩
    intro x hx
    simp at hx
    subst hx
    rfl

theorem iStream_unchanged_fields (packet : AkPacket) (e : MultiSinkElement σ) :
    (iStream W packet e).2.state = e.state
    ∧ ((iStream W packet e).2.m_mediaWriter = none ↔ e.m_mediaWriter = none) := by
  unfold iStream
  by_cases hs : e.state = .ElementStatePlaying
  · cases hw : e.m_mediaWriter with
    | none => simp [hs, hw]
    | some w =>
      by_cases hm : packet.index ∈ e.m_inputStreams
      · simp [hs, hw, hm]
      · simp [hs, hw, hm]
  · simp [hs]

/-! ### The state machine -/

theorem setState_of_no_writer (state : ElementState) (e : MultiSinkElement σ)
    (hw : e.m_mediaWriter = none) : setState W state e = (false, e) := by
  simp [setState, hw]

theorem setState_null_of_active (e : MultiSinkElement σ) (w : σ)
    (hw : e.m_mediaWriter = some w) (hs : e.state ≠ .ElementStateNull) :
    setState W .ElementStateNull e
      = (true, { e with state := .ElementStateNull, m_mediaWriter := some (W.uninit w),
                        calls := e.calls ++ [Call.uninit] }) := by
  simp [setState, hw, hs, AkElement.setState]

theorem setState_of_null (state : ElementState) (e : MultiSinkElement σ) (w : σ)
    (hw : e.m_mediaWriter = some w) (hs : e.state = .ElementStateNull)
    (hne : state ≠ .ElementStateNull) :
    setState W state e
      = (if (W.init w).1 then
           (true, { e with state := state, m_mediaWriter := some (W.init w).2,
                           calls := e.calls ++ [Call.init] })
         else
           (false, { e with m_mediaWriter := some (W.init w).2,
                            calls := e.calls ++ [Call.init] })) := by
  have hne1 : ¬ ElementState.ElementStateNull = state := fun h => hne h.symm
  by_cases hi : (W.init w).1 = true
  · simp [setState, hw, hs, hne, hne1, hi, AkElement.setState]
  · simp [setState, hw, hs, hne, hi, AkElement.setState]

/-- The method `setState` touches only the state, the writer and the ghost
log, and the only calls it makes are `init` and `uninit`. -/
theorem setState_frame (state : ElementState) (e : MultiSinkElement σ) :
    (setState W state e).2.m_inputStreams = e.m_inputStreams
    ∧ (setState W state e).2.m_location = e.m_location
    ∧ (setState W state e).2.emitted = e.emitted
    ∧ (setState W state e).2.m_mediaWriter.isSome = e.m_mediaWriter.isSome
    ∧ ∃ d : List Call, (setState W state e).2.calls = e.calls ++ d
        ∧ ∀ c ∈ d, c = Call.init ∨ c = Call.uninit := by
  cases hw : e.m_mediaWriter with
  | none =>
    rw [setState_of_no_writer W state e hw]
    exact ⟨rfl, rfl, rfl, by simp [hw], [], by simp, by simp⟩
  | some w =>
    by_cases hs : e.state = .ElementStateNull
    · by_cases hne : state = .ElementStateNull
      · subst hne
        refine ⟨?_, ?_, ?_, ?_, [], ?_, by simp⟩ <;>
          simp [setState, hw, hs, AkElement.setState]
      · rw [setState_of_null W state e w hw hs hne]
        by_cases hi : (W.init w).1 = true
        · rw [if_pos hi]
          exact ⟨rfl, rfl, rfl, rfl, [Call.init], rfl, by simp⟩
        · rw [if_neg hi]
          exact ⟨rfl, rfl, rfl, rfl, [Call.init], rfl, by simp⟩
    · by_cases hne : state = .ElementStateNull
      · subst hne
        rw [setState_null_of_active W e w hw hs]
        exact ⟨rfl, rfl, rfl, rfl, [Call.uninit], rfl, by simp⟩
      · refine ⟨?_, ?_, ?_, ?_, [], ?_, by simp⟩ <;>
          simp [setState, hw, hs, hne, AkElement.setState]

/-- The method `setState` leaves every field but the state, the writer and
the ghost log alone. -/
theorem setState_eq (state : ElementState) (e : MultiSinkElement σ) :
    (setState W state e).2
      = { e with state := (setState W state e).2.state,
                 m_mediaWriter := (setState W state e).2.m_mediaWriter,
                 calls := (setState W state e).2.calls } := by
  cases hw : e.m_mediaWriter with
  | none => rw [setState_of_no_writer W state e hw]
  | some w =>
    by_cases hs : e.state = .ElementStateNull
    · by_cases hne : state = .ElementStateNull
      · subst hne
        simp [setState, hw, hs, AkElement.setState]
      · rw [setState_of_null W state e w hw hs hne]
        by_cases hi : (W.init w).1 = true
        · rw [if_pos hi]
        · rw [if_neg hi]
    · by_cases hne : state = .ElementStateNull
      · subst hne
        rw [setState_null_of_active W e w hw hs]
      · simp [setState, hw, hs, hne, AkElement.setState]

/-! ### The back-end swap, stage by stage -/

theorem codecLibUpdated_of_load_none (codecLib : String) (e : MultiSinkElement σ)
    (hload : loadSubModule codecLib = none) :
    codecLibUpdated W loadSubModule codecLib e = afterLoad W loadSubModule codecLib e := by
  simp [codecLibUpdated, afterLoad, hload]

theorem codecLibUpdated_of_load_some (codecLib : String) (e : MultiSinkElement σ) (b : σ)
    (hload : loadSubModule codecLib = some b) :
    codecLibUpdated W loadSubModule codecLib e
      = (setState W e.state (afterAttach W loadSubModule codecLib b e)).2 := by
  simp [codecLibUpdated, afterAttach, afterLoad, savedLocation, supportedFormats, hload]

theorem afterLoad_of_active (codecLib : String) (e : MultiSinkElement σ) (w : σ)
    (hw : e.m_mediaWriter = some w) (hs : e.state ≠ .ElementStateNull) :
    afterLoad W loadSubModule codecLib e
      = { e with state := .ElementStateNull, m_mediaWriter := loadSubModule codecLib,
                 calls := e.calls ++ [Call.uninit, Call.loadSubModule codecLib] } := by
  simp [afterLoad, setState_null_of_active W e w hw hs]

theorem savedLocation_of_active (e : MultiSinkElement σ) (w : σ)
    (hw : e.m_mediaWriter = some w) (hs : e.state ≠ .ElementStateNull) :
    savedLocation W e = W.location (W.uninit w) := by
  simp [savedLocation, setState_null_of_active W e w hw hs]

theorem afterAttach_frame (codecLib : String) (b : σ) (e : MultiSinkElement σ) :
    (afterAttach W loadSubModule codecLib b e).state
        = (afterLoad W loadSubModule codecLib e).state
    ∧ (afterAttach W loadSubModule codecLib b e).m_location = e.m_location
    ∧ (afterAttach W loadSubModule codecLib b e).m_inputStreams = e.m_inputStreams
    ∧ (afterAttach W loadSubModule codecLib b e).m_mediaWriter
        = some (W.setLocation b (savedLocation W e)) := by
  obtain ⟨h1, h2, _, h4, _⟩ := rebuildCatalog_frame W b (afterLoad W loadSubModule codecLib e)
  obtain ⟨g1, g2, _, _, _⟩ := setState_frame W .ElementStateNull e
  refine ⟨h1, ?_, ?_, rfl⟩
  · exact h2.trans g2
  · exact h4.trans g1

/-- The caches after a swap that loaded writer `b` are those the rebuild
produced, and the log is the one of the rebuild followed by `setLocation` and
by what the final `setState` adds. -/
theorem codecLibUpdated_caches (codecLib : String) (e : MultiSinkElement σ) (b : σ)
    (hload : loadSubModule codecLib = some b) :
    (codecLibUpdated W loadSubModule codecLib e).m_supportedFormats
        = (rebuildCatalog W b (afterLoad W loadSubModule codecLib e)).m_supportedFormats
    ∧ (codecLibUpdated W loadSubModule codecLib e).m_fileExtensions
        = (rebuildCatalog W b (afterLoad W loadSubModule codecLib e)).m_fileExtensions
    ∧ (codecLibUpdated W loadSubModule codecLib e).m_formatDescription
        = (rebuildCatalog W b (afterLoad W loadSubModule codecLib e)).m_formatDescription
    ∧ (codecLibUpdated W loadSubModule codecLib e).m_supportedCodecs
        = (rebuildCatalog W b (afterLoad W loadSubModule codecLib e)).m_supportedCodecs
    ∧ (codecLibUpdated W loadSubModule codecLib e).m_codecDescription
        = (rebuildCatalog W b (afterLoad W loadSubModule codecLib e)).m_codecDescription
    ∧ (codecLibUpdated W loadSubModule codecLib e).m_codecType
        = (rebuildCatalog W b (afterLoad W loadSubModule codecLib e)).m_codecType
    ∧ (codecLibUpdated W loadSubModule codecLib e).m_defaultCodecParams
        = (rebuildCatalog W b (afterLoad W loadSubModule codecLib e)).m_defaultCodecParams
    ∧ ∃ d₁ d₂ : List Call,
        (∀ c ∈ d₁, c = Call.init ∨ c = Call.uninit)
        ∧ (∀ c ∈ d₂, c = Call.init ∨ c = Call.uninit)
        ∧ (afterLoad W loadSubModule codecLib e).calls
            = e.calls ++ d₁ ++ [Call.loadSubModule codecLib]
        ∧ (codecLibUpdated W loadSubModule codecLib e).calls
            = (rebuildCatalog W b (afterLoad W loadSubModule codecLib e)).calls
              ++ [Call.setLocation (savedLocation W e)] ++ d₂ := by
  rw [codecLibUpdated_of_load_some W loadSubModule codecLib e b hload]
  have heq := setState_eq W e.state (afterAttach W loadSubModule codecLib b e)
  obtain ⟨_, _, _, _, d₂, hd₂, hq₂⟩ :=
    setState_frame W e.state (afterAttach W loadSubModule codecLib b e)
  obtain ⟨_, _, _, _, d₁, hd₁, hq₁⟩ := setState_frame W .ElementStateNull e
  refine ⟨?_, ?_, ?_, ?_, ?_, ?_, ?_, d₁, d₂, hq₁, hq₂, ?_, ?_⟩
  · rw [heq]; rfl
  · rw [heq]; rfl
  · rw [heq]; rfl
  · rw [heq]; rfl
  · rw [heq]; rfl
  · rw [heq]; rfl
  · rw [heq]; rfl
  · simp [afterLoad, hd₁]
  · rw [hd₂]; rfl

/-- In general a swap leaves `m_inputStreams` and `m_location` alone and
appends to the log only `init`/`uninit`, the load, catalog queries and
`setLocation`. -/
theorem codecLibUpdated_frame (codecLib : String) (e : MultiSinkElement σ) :
    (codecLibUpdated W loadSubModule codecLib e).m_inputStreams = e.m_inputStreams
    ∧ (codecLibUpdated W loadSubModule codecLib e).m_location = e.m_location
    ∧ (codecLibUpdated W loadSubModule codecLib e).m_mediaWriter.isSome
        = (loadSubModule codecLib).isSome
    ∧ ∃ d : List Call,
        (codecLibUpdated W loadSubModule codecLib e).calls = e.calls ++ d
        ∧ Call.loadSubModule codecLib ∈ d
        ∧ ∀ c ∈ d, c = Call.init ∨ c = Call.uninit ∨ c = Call.loadSubModule codecLib
            ∨ c.isCatalogQuery = true ∨ c = Call.setLocation (savedLocation W e) := by
  obtain ⟨g1, g2, _, _, d₁, hd₁, hq₁⟩ := setState_frame W .ElementStateNull e
  cases hload : loadSubModule codecLib with
  | none =>
    rw [codecLibUpdated_of_load_none W loadSubModule codecLib e hload]
    refine ⟨g1, g2, by simp [afterLoad, hload], d₁ ++ [Call.loadSubModule codecLib],
      by simp [afterLoad, hd₁], by simp, ?_⟩
    intro c hc
    rcases List.mem_append.1 hc with h | h
    · rcases hq₁ c h with h1 | h1
      · exact Or.inl h1
      · exact Or.inr (Or.inl h1)
    · exact Or.inr (Or.inr (Or.inl (List.mem_singleton.1 h)))
  | some b =>
    obtain ⟨_, _, _, _, _, _, _, d₁, d₂, hq₁, hq₂, hAL, hcalls⟩ :=
      codecLibUpdated_caches W loadSubModule codecLib e b hload
    obtain ⟨pulls, hp, hq⟩ := rebuildCatalog_calls W b (afterLoad W loadSubModule codecLib e)
    rw [codecLibUpdated_of_load_some W loadSubModule codecLib e b hload] at hcalls ⊢
    obtain ⟨_, f2, f3, f4⟩ := afterAttach_frame W loadSubModule codecLib b e
    obtain ⟨k1, k2, _, k4, _⟩ :=
      setState_frame W e.state (afterAttach W loadSubModule codecLib b e)
    refine ⟨k1.trans f3, k2.trans f2, by rw [k4, f4]; rfl,
      d₁ ++ [Call.loadSubModule codecLib] ++ pulls ++ [Call.setLocation (savedLocation W e)]
        ++ d₂, by rw [hcalls, hp, hAL]; simp, by simp, ?_⟩
    intro c hc
    simp only [List.mem_append, List.mem_singleton] at hc
    rcases hc with (((h | h) | h) | h) | h
    · rcases hq₁ c h with h1 | h1
      · exact Or.inl h1
      · exact Or.inr (Or.inl h1)
    · exact Or.inr (Or.inr (Or.inl h))
    · exact Or.inr (Or.inr (Or.inr (Or.inl (hq c h))))
    · exact Or.inr (Or.inr (Or.inr (Or.inr h)))
    · rcases hq₂ c h with h1 | h1
      · exact Or.inl h1
      · exact Or.inr (Or.inl h1)

theorem addStream_of_none (streamIndex : Int) (streamCaps : AkCaps)
    (codecParams : QVariantMap) (e : MultiSinkElement σ) (hw : e.m_mediaWriter = none) :
    addStream W streamIndex streamCaps codecParams e = ([], e) := by
  simp [addStream, hw]

theorem addStream_of_some (streamIndex : Int) (streamCaps : AkCaps)
    (codecParams : QVariantMap) (e : MultiSinkElement σ) (w : σ)
    (hw : e.m_mediaWriter = some w) :
    addStream W streamIndex streamCaps codecParams e
      = ((W.addStream w streamIndex streamCaps codecParams).1,
         { e with
            m_mediaWriter := some (W.addStream w streamIndex streamCaps codecParams).2,
            m_inputStreams :=
              (if (W.addStream w streamIndex streamCaps codecParams).1 = [] then e.m_inputStreams
               else e.m_inputStreams ++ [streamIndex]),
            calls := e.calls ++ [Call.addStream streamIndex streamCaps codecParams] }) := by
  by_cases hr : (W.addStream w streamIndex streamCaps codecParams).1 = []
  · simp [addStream, hw, hr]
  · simp [addStream, hw, hr]

/-! ### Reachable states -/

/-- In every state reached from the constructor, an element without a writer
is in state Null; so a Playing (or Paused) element has a writer loaded. -/
theorem reach_no_writer_null (codecLib : String) (ops : List Op) :
    (reach W loadSubModule codecLib ops).m_mediaWriter = none →
      (reach W loadSubModule codecLib ops).state = .ElementStateNull := by
  have hswap : ∀ (lib : String) (x : MultiSinkElement σ),
      (x.m_mediaWriter = none → x.state = .ElementStateNull) →
      (codecLibUpdated W loadSubModule lib x).m_mediaWriter = none →
      (codecLibUpdated W loadSubModule lib x).state = .ElementStateNull := by
    intro lib x hx hnone
    cases hload : loadSubModule lib with
    | some b =>
      have h := (codecLibUpdated_frame W loadSubModule lib x).2.2.1
      rw [hnone, hload] at h
      simp at h
    | none =>
      rw [codecLibUpdated_of_load_none W loadSubModule lib x hload]
      cases hw : x.m_mediaWriter with
      | none => simp [afterLoad, setState_of_no_writer W _ x hw, hx hw]
      | some w =>
        by_cases hs : x.state = .ElementStateNull
        · simp [afterLoad, setState, hw, hs, AkElement.setState]
        · simp [afterLoad, setState_null_of_active W x w hw hs]
  unfold reach
  apply foldl_invariant
    (fun x : MultiSinkElement σ => x.m_mediaWriter = none → x.state = .ElementStateNull)
  · intro x op hx
    cases op with
    | addStream i caps params =>
      cases hw : x.m_mediaWriter with
      | none => simpa [applyOp, addStream_of_none W i caps params x hw, hw] using hx hw
      | some w => simp [applyOp, addStream_of_some W i caps params x w hw]
    | updateStream i params =>
      cases hw : x.m_mediaWriter with
      | none => simpa [applyOp, updateStream, hw] using hx hw
      | some w => simp [applyOp, updateStream, hw]
    | clearStreams =>
      cases hw : x.m_mediaWriter with
      | none => simpa [applyOp, clearStreams, hw] using hx hw
      | some w => simp [applyOp, clearStreams, hw]
    | iStream packet =>
      intro hnone
      have h := (iStream_unchanged_fields W packet x)
      simp only [applyOp] at hnone ⊢
      rw [h.1]
      exact hx (h.2.1 hnone)
    | setState state =>
      cases hw : x.m_mediaWriter with
      | none => simpa [applyOp, setState_of_no_writer W state x hw, hw] using hx hw
      | some w =>
        intro hnone
        have h := (setState_frame W state x).2.2.2.1
        simp only [applyOp] at hnone
        rw [hnone, hw] at h
        simp at h
    | setLocation l =>
      by_cases hl : x.m_location = l
      · simpa [applyOp, setLocation, hl] using hx
      · cases hw : x.m_mediaWriter with
        | none => simpa [applyOp, setLocation, hl, hw] using hx hw
        | some w => simp [applyOp, setLocation, hl, hw]
    | codecLibUpdated lib => exact hswap lib x hx
  · exact hswap codecLib (MultiSinkElement.fresh σ) (fun _ => rfl)

/-! ### Claims -/

/-- C1: `iStream` forwards the packet to the writer's `enqueuePacket` exactly
once when the state is Playing, a writer is loaded and the packet's index is
in `m_inputStreams`, and makes no call at all otherwise (the ghost log grows
by exactly that one call, or not at all, and the writer is otherwise left
alone); it always returns an empty packet and leaves the state and
`m_inputStreams` as they were. -/
theorem iStream_forwards_iff (packet : AkPacket) (e : MultiSinkElement σ) :
    (iStream W packet e).1 = AkPacket.empty
    ∧ (iStream W packet e).2.state = e.state
    ∧ (iStream W packet e).2.m_inputStreams = e.m_inputStreams
    ∧ (iStream W packet e).2 =
        (if e.state = .ElementStatePlaying ∧ e.m_mediaWriter.isSome
            ∧ packet.index ∈ e.m_inputStreams then
          { e with m_mediaWriter := e.m_mediaWriter.map (fun w => W.enqueuePacket w packet),
                   calls := e.calls ++ [Call.enqueuePacket packet] }
        else e)
    ∧ ((iStream W packet e).2.calls.count (Call.enqueuePacket packet)
        = e.calls.count (Call.enqueuePacket packet) +
          (if e.state = .ElementStatePlaying ∧ e.m_mediaWriter.isSome
            ∧ packet.index ∈ e.m_inputStreams then 1 else 0)) := by
  unfold iStream
  by_cases hs : e.state = .ElementStatePlaying
  · cases hw : e.m_mediaWriter with
    | none => simp [hs, hw]
    | some w =>
      by_cases hm : packet.index ∈ e.m_inputStreams
      · simp [hs, hw, hm]
      · simp [hs, hw, hm]
  · simp [hs]

/-- C2: in state Null with a loaded writer whose `init()` returns false,
`setState(Paused)` and `setState(Playing)` return false; the state is still
Null, `m_inputStreams` is unchanged, and the only call made on the writer is
`init` (so `uninit` is not called). -/
theorem setState_init_failure (state : ElementState) (e : MultiSinkElement σ) (w : σ)
    (hstate : state = .ElementStatePaused ∨ state = .ElementStatePlaying)
    (hnull : e.state = .ElementStateNull) (hw : e.m_mediaWriter = some w)
    (hinit : (W.init w).1 = false) :
    (setState W state e).1 = false
    ∧ (setState W state e).2.state = .ElementStateNull
    ∧ (setState W state e).2.m_inputStreams = e.m_inputStreams
    ∧ (setState W state e).2.calls = e.calls ++ [Call.init]
    ∧ (setState W state e).2.calls.count Call.uninit = e.calls.count Call.uninit
    ∧ (setState W state e).2 =
        { e with m_mediaWriter := some (W.init w).2, calls := e.calls ++ [Call.init] } := by
  have hne : state ≠ .ElementStateNull := by
    rcases hstate with h | h <;> simp [h]
  simp [setState, hw, hnull, hne, hinit]

/-- Witness for C2 at the concrete element whose writer cannot open its
output. -/
theorem setState_init_failure_witness :
    (setState demoWriter .ElementStatePlaying demoFailing).1 = false
    ∧ (setState demoWriter .ElementStatePlaying demoFailing).2.state = .ElementStateNull
    ∧ (setState demoWriter .ElementStatePlaying demoFailing).2.m_inputStreams
        = demoFailing.m_inputStreams
    ∧ (setState demoWriter .ElementStatePlaying demoFailing).2.calls
        = demoFailing.calls ++ [Call.init] :=
  have h := setState_init_failure demoWriter .ElementStatePlaying demoFailing
    ⟨"gstreamer", "", false, false, [], []⟩ (Or.inr rfl) (by decide) (by decide) (by decide)
  ⟨h.1, h.2.1, h.2.2.1, h.2.2.2.1⟩

/-- C4: `addStream` returns exactly what the writer's `addStream` returns
(an empty result when no writer is loaded); a non-empty result appends the
index to `m_inputStreams`, so the index is accepted afterwards and every
index accepted before still is; an empty result, or no writer, leaves
`m_inputStreams` unchanged.  In particular, with nothing accepted yet and a
writer that accepts everything, `addStream(0, caps, {})` returns a non-empty
result and `m_inputStreams` is exactly `[0]`. -/
theorem addStream_registers (streamIndex : Int) (streamCaps : AkCaps)
    (codecParams : QVariantMap) (e : MultiSinkElement σ) :
    (addStream W streamIndex streamCaps codecParams e).1
        = (match e.m_mediaWriter with
           | none => []
           | some w => (W.addStream w streamIndex streamCaps codecParams).1)
    ∧ (addStream W streamIndex streamCaps codecParams e).2.m_inputStreams
        = (if (addStream W streamIndex streamCaps codecParams e).1 ≠ []
           then e.m_inputStreams ++ [streamIndex] else e.m_inputStreams)
    ∧ ((addStream W streamIndex streamCaps codecParams e).1 ≠ [] →
        streamIndex ∈ (addStream W streamIndex streamCaps codecParams e).2.m_inputStreams
        ∧ ∀ j ∈ e.m_inputStreams,
            j ∈ (addStream W streamIndex streamCaps codecParams e).2.m_inputStreams)
    ∧ ((addStream W streamIndex streamCaps codecParams e).1 = [] →
        (addStream W streamIndex streamCaps codecParams e).2.m_inputStreams = e.m_inputStreams)
    ∧ (e.m_mediaWriter = none →
        (addStream W streamIndex streamCaps codecParams e).1 = []
        ∧ (addStream W streamIndex streamCaps codecParams e).2 = e)
    ∧ (∀ w : σ, e.m_mediaWriter = some w → e.m_inputStreams = [] →
        (∀ (v : σ) (i : Int) (c : AkCaps) (p : QVariantMap), (W.addStream v i c p).1 ≠ []) →
        (addStream W 0 streamCaps [] e).1 ≠ []
        ∧ (addStream W 0 streamCaps [] e).2.m_inputStreams = [0]) := by
  cases hw : e.m_mediaWriter with
  | none => simp [addStream_of_none W _ _ _ e hw]
  | some w =>
    rw [addStream_of_some W _ _ _ e w hw]
    refine ⟨rfl, ?_, ?_, ?_, by simp, ?_⟩
    · by_cases hr : (W.addStream w streamIndex streamCaps codecParams).1 = [] <;> simp [hr]
    · intro hr
      have hr1 : ¬ (W.addStream w streamIndex streamCaps codecParams).1 = [] := hr
      simp only [hr1, if_false]
      exact ⟨by simp, fun j hj => List.mem_append_left _ hj⟩
    · intro hr
      have hr1 : (W.addStream w streamIndex streamCaps codecParams).1 = [] := hr
      simp only [hr1, if_true]
    · intro v _ hempty hall
      rw [addStream_of_some W _ _ _ e w hw]
      have hr := hall w 0 streamCaps []
      simp [hr, hempty]

/-- Witness for C4: the scenario of the specification at the concrete
element, whose writer accepts every stream. -/
theorem addStream_registers_witness :
    (addStream demoWriter 0 "video/x-raw" [] demoElement).1 ≠ []
    ∧ (addStream demoWriter 0 "video/x-raw" [] demoElement).2.m_inputStreams = [0] :=
  (addStream_registers demoWriter 0 "video/x-raw" [] demoElement).2.2.2.2.2
    ⟨"ffmpeg", "", true, false, [], []⟩ (by decide) (by decide)
    (fun _ _ _ _ => by simp [demoWriter])

/-- C5 (counterexample): with index 0 already accepted, a second
`addStream(0, ...)` on a writer that accepts it returns a non-empty result
and records the index a second time. -/
theorem addStream_duplicate_counterexample :
    (0 : Int) ∈ (addStream demoWriter 0 "video/x-raw" [] demoElement).2.m_inputStreams
    ∧ (addStream demoWriter 0 "video/x-raw" []
        (addStream demoWriter 0 "video/x-raw" [] demoElement).2).1 ≠ []
    ∧ (addStream demoWriter 0 "video/x-raw" []
        (addStream demoWriter 0 "video/x-raw" [] demoElement).2).2.m_inputStreams = [0, 0] := by
  decide

/-- C5 (amended): when `addStream` is called with an index that is already in
`m_inputStreams`, the element itself never rejects it: the result is the
writer's result (empty without a writer); an empty result leaves
`m_inputStreams` unchanged, a non-empty result appends the index once more;
in both cases the same indices are accepted as before. -/
theorem addStream_duplicate_index (streamIndex : Int) (streamCaps : AkCaps)
    (codecParams : QVariantMap) (e : MultiSinkElement σ)
    (hmem : streamIndex ∈ e.m_inputStreams) :
    (addStream W streamIndex streamCaps codecParams e).1
        = (match e.m_mediaWriter with
           | none => []
           | some w => (W.addStream w streamIndex streamCaps codecParams).1)
    ∧ ((addStream W streamIndex streamCaps codecParams e).1 = [] →
        (addStream W streamIndex streamCaps codecParams e).2.m_inputStreams = e.m_inputStreams)
    ∧ ((addStream W streamIndex streamCaps codecParams e).1 ≠ [] →
        (addStream W streamIndex streamCaps codecParams e).2.m_inputStreams
          = e.m_inputStreams ++ [streamIndex])
    ∧ (∀ j : Int, j ∈ (addStream W streamIndex streamCaps codecParams e).2.m_inputStreams
        ↔ j ∈ e.m_inputStreams) := by
  cases hw : e.m_mediaWriter with
  | none => simp [addStream_of_none W _ _ _ e hw]
  | some w =>
    rw [addStream_of_some W _ _ _ e w hw]
    by_cases hr : (W.addStream w streamIndex streamCaps codecParams).1 = []
    · simp [hr]
    · refine ⟨rfl, fun h => absurd h hr, fun _ => by simp [hr], fun j => ?_⟩
      simp only [hr, if_false]
      constructor
      · intro hj
        rcases List.mem_append.1 hj with h | h
        · exact h
        · rw [List.mem_singleton.1 h]; exact hmem
      · exact fun hj => List.mem_append_left _ hj

/-- Witness for the amended C5 at the concrete element with index 0
accepted. -/
theorem addStream_duplicate_index_witness :
    (addStream demoWriter 0 "video/x-raw" [] demoPlaying).2.m_inputStreams
      = demoPlaying.m_inputStreams ++ [0] :=
  (addStream_duplicate_index demoWriter 0 "video/x-raw" [] demoPlaying (by decide)).2.2.1
    (by decide)

/-- C6: after any sequence of `addStream`/`clearStreams` calls, with or
without a writer, `m_inputStreams` is empty right after a `clearStreams`
call; a second `clearStreams` changes no field of the element (only the
writer receives its own `clearStreams` again, which the ghost log records, and
a writer whose `clearStreams` is idempotent is itself unchanged); and
`clearStreams` changes neither the state nor the location. -/
theorem clearStreams_empties_registry (ops : List StreamOp) (e : MultiSinkElement σ) :
    (clearStreams W (runStreamOps W ops e)).m_inputStreams = []
    ∧ (runStreamOps W (ops ++ [StreamOp.clearStreams]) e).m_inputStreams = []
    ∧ clearStreams W (clearStreams W e)
        = { clearStreams W e with
              m_mediaWriter := (clearStreams W e).m_mediaWriter.map W.clearStreams,
              calls := (clearStreams W e).calls ++
                (if e.m_mediaWriter.isSome then [Call.clearStreams] else []) }
    ∧ ((∀ w : σ, W.clearStreams (W.clearStreams w) = W.clearStreams w) →
        (clearStreams W (clearStreams W e)).m_mediaWriter = (clearStreams W e).m_mediaWriter)
    ∧ (clearStreams W e).state = e.state
    ∧ location (clearStreams W e) = location e
    ∧ (clearStreams W (runStreamOps W ops e)).state = (runStreamOps W ops e).state
    ∧ location (clearStreams W (runStreamOps W ops e)) = location (runStreamOps W ops e) := by
  have hclear : ∀ x : MultiSinkElement σ, (clearStreams W x).m_inputStreams = [] := by
    intro x; cases hx : x.m_mediaWriter <;> simp [clearStreams, hx]
  have hstate : ∀ x : MultiSinkElement σ, (clearStreams W x).state = x.state := by
    intro x; cases hx : x.m_mediaWriter <;> simp [clearStreams, hx]
  have hloc : ∀ x : MultiSinkElement σ, location (clearStreams W x) = location x := by
    intro x; cases hx : x.m_mediaWriter <;> simp [clearStreams, location, hx]
  refine ⟨hclear _, ?_, ?_, ?_, hstate e, hloc e, hstate _, hloc _⟩
  · simp [runStreamOps, List.foldl_append, applyStreamOp, hclear]
  · cases hx : e.m_mediaWriter <;> simp [clearStreams, hx]
  · intro hidem
    cases hx : e.m_mediaWriter <;> simp [clearStreams, hx, hidem]

/-- Witness for C6: two streams are registered on the concrete element, then
`clearStreams` runs twice; the concrete writer's `clearStreams` is
idempotent. -/
theorem clearStreams_empties_registry_witness :
    (runStreamOps demoWriter
      [StreamOp.addStream 0 "video/x-raw" [], StreamOp.addStream 1 "audio/x-raw" []]
      demoElement).m_inputStreams = [0, 1]
    ∧ (clearStreams demoWriter (runStreamOps demoWriter
      [StreamOp.addStream 0 "video/x-raw" [], StreamOp.addStream 1 "audio/x-raw" []]
      demoElement)).m_inputStreams = []
    ∧ (clearStreams demoWriter (clearStreams demoWriter demoPlaying)).m_mediaWriter
        = (clearStreams demoWriter demoPlaying).m_mediaWriter :=
  ⟨by decide,
   (clearStreams_empties_registry demoWriter
      [StreamOp.addStream 0 "video/x-raw" [], StreamOp.addStream 1 "audio/x-raw" []]
      demoElement).1,
   (clearStreams_empties_registry demoWriter [] demoPlaying).2.2.2.1 (fun _ => rfl)⟩

/-- The part of C7 that holds in every state without a writer: the queries
that are forwarded to the writer return their empty value. -/
theorem forwarded_queries_empty_of_no_writer (e : MultiSinkElement σ)
    (hw : e.m_mediaWriter = none) (format type : String) (index : Int) :
    defaultFormat W e = "" ∧ outputFormat W e = "" ∧ streams W e = []
    ∧ formatsBlackList W e = [] ∧ codecsBlackList W e = [] ∧ formatOptions W e = []
    ∧ supportedCodecs W e format type = [] ∧ defaultCodec W e format type = ""
    ∧ codecOptions W e index = [] := by
  simp [defaultFormat, outputFormat, streams, formatsBlackList, codecsBlackList,
    formatOptions, supportedCodecs, defaultCodec, codecOptions, hw]

/-- A swap whose load fails leaves all seven caches exactly as they were,
whatever they held. -/
theorem codecLibUpdated_load_failure_keeps_caches (codecLib : String)
    (e : MultiSinkElement σ) (hload : loadSubModule codecLib = none) :
    (codecLibUpdated W loadSubModule codecLib e).m_mediaWriter = none
    ∧ (codecLibUpdated W loadSubModule codecLib e).m_supportedFormats = e.m_supportedFormats
    ∧ (codecLibUpdated W loadSubModule codecLib e).m_fileExtensions = e.m_fileExtensions
    ∧ (codecLibUpdated W loadSubModule codecLib e).m_formatDescription = e.m_formatDescription
    ∧ (codecLibUpdated W loadSubModule codecLib e).m_supportedCodecs = e.m_supportedCodecs
    ∧ (codecLibUpdated W loadSubModule codecLib e).m_codecDescription = e.m_codecDescription
    ∧ (codecLibUpdated W loadSubModule codecLib e).m_codecType = e.m_codecType
    ∧ (codecLibUpdated W loadSubModule codecLib e).m_defaultCodecParams
        = e.m_defaultCodecParams := by
  rw [codecLibUpdated_of_load_none W loadSubModule codecLib e hload]
  have heq := setState_eq W .ElementStateNull e
  refine ⟨by simp [afterLoad, hload], ?_, ?_, ?_, ?_, ?_, ?_, ?_⟩ <;>
    simp only [afterLoad] <;> rw [heq]

/-- C7 (code defect): the element loads "ffmpeg" at construction, then a swap
to a plugin that cannot be loaded leaves it without a writer; yet the cached
queries still answer with the catalog of the writer that is gone, because
`codecLibUpdated` returns before it clears the caches. -/
theorem stale_catalog_after_failed_swap :
    (codecLibUpdated demoWriter demoLoad "missing" demoElement).m_mediaWriter = none
    ∧ supportedFormats (codecLibUpdated demoWriter demoLoad "missing" demoElement)
        = ["webm", "mkv"]
    ∧ fileExtensions (codecLibUpdated demoWriter demoLoad "missing" demoElement) "webm"
        = ["webm"]
    ∧ formatDescription (codecLibUpdated demoWriter demoLoad "missing" demoElement) "webm"
        = "format webm"
    ∧ codecDescription (codecLibUpdated demoWriter demoLoad "missing" demoElement) "vp8"
        = "codec vp8"
    ∧ codecType (codecLibUpdated demoWriter demoLoad "missing" demoElement) "vp8" = "video"
    ∧ defaultCodecParams (codecLibUpdated demoWriter demoLoad "missing" demoElement) "vp8"
        = [("codec", "vp8")] := by
  decide

/-- The connections that do re-publish verbatim: a writer signal of any kind
other than `codecsBlackListChanged` (and other than `supportedFormatsChanged`,
which the writer does not have) is re-emitted by the element with the same
kind and the same arguments, once. -/
theorem republish_verbatim (k : SignalKind) (p : Payload)
    (hk : k ≠ .codecsBlackListChanged) (hs : k ≠ .supportedFormatsChanged) :
    republish ⟨k, p⟩ = [⟨k, p⟩] := by
  cases k <;> first | exact absurd rfl hk | exact absurd rfl hs | rfl

/-- C9 (code defect): when the writer emits `codecsBlackListChanged`, the
element emits `formatsBlackListChanged` with that payload and does not emit
`codecsBlackListChanged` at all (the connection of lines 424-427 names the
wrong element signal). -/
theorem republish_codecsBlackListChanged (p : Payload) :
    republish ⟨.codecsBlackListChanged, p⟩ = [⟨.formatsBlackListChanged, p⟩]
    ∧ (⟨.codecsBlackListChanged, p⟩ : Signal) ∉ republish ⟨.codecsBlackListChanged, p⟩ := by
  have h : republish ⟨.codecsBlackListChanged, p⟩ = [⟨.formatsBlackListChanged, p⟩] := rfl
  refine ⟨h, ?_⟩
  rw [h]
  simp

theorem catalogQuery_ne_lifecycle (c : Call) (h : c.isCatalogQuery = true) :
    c ≠ Call.init ∧ c ≠ Call.uninit := by
  constructor <;> (intro hc; subst hc; simp [Call.isCatalogQuery] at h)

/-- The swap while Playing, in terms of the location the old writer reports
when it is replaced. -/
theorem swap_while_playing_core (codecLib : String) (e : MultiSinkElement σ) (w : σ)
    (hs : e.state = .ElementStatePlaying) (hw : e.m_mediaWriter = some w) :
    ((codecLibUpdated W loadSubModule codecLib e).state = .ElementStatePlaying
      ∨ (codecLibUpdated W loadSubModule codecLib e).state = .ElementStateNull)
    ∧ ((codecLibUpdated W loadSubModule codecLib e).state = .ElementStateNull ↔
        (loadSubModule codecLib = none
          ∨ ∃ b, loadSubModule codecLib = some b
              ∧ (W.init (W.setLocation b (W.location (W.uninit w)))).1 = false))
    ∧ location (codecLibUpdated W loadSubModule codecLib e) = location e
    ∧ (codecLibUpdated W loadSubModule codecLib e).m_mediaWriter
        = (loadSubModule codecLib).map
            (fun b => (W.init (W.setLocation b (W.location (W.uninit w)))).2)
    ∧ (∃ mid : List Call, (∀ c ∈ mid, c ≠ Call.init ∧ c ≠ Call.uninit)
        ∧ ((loadSubModule codecLib).isSome = true →
            Call.setLocation (W.location (W.uninit w)) ∈ mid)
        ∧ (codecLibUpdated W loadSubModule codecLib e).calls
            = e.calls ++ [Call.uninit, Call.loadSubModule codecLib]
              ++ (match loadSubModule codecLib with
                  | none => []
                  | some _ => mid ++ [Call.init])) := by
  have hact : e.state ≠ .ElementStateNull := by simp [hs]
  have hAL := afterLoad_of_active W loadSubModule codecLib e w hw hact
  have hSL := savedLocation_of_active W e w hw hact
  refine ⟨?_, ?_, ?_, ?_, ?_⟩
  all_goals
    cases hload : loadSubModule codecLib with
    | none =>
      rw [codecLibUpdated_of_load_none W loadSubModule codecLib e hload, hAL]
      first
        | exact Or.inr rfl
        | exact ⟨fun _ => Or.inl rfl, fun _ => rfl⟩
        | exact ⟨[], by simp, by simp, by simp [hload]⟩
        | simp [location, hload]
    | some b =>
      rw [codecLibUpdated_of_load_some W loadSubModule codecLib e b hload]
      obtain ⟨f1, f2, _, f4⟩ := afterAttach_frame W loadSubModule codecLib b e
      rw [hAL] at f1
      rw [hSL] at f4
      have hset := setState_of_null W .ElementStatePlaying
        (afterAttach W loadSubModule codecLib b e) _ f4 f1 (by decide)
      rw [hs, hset]
      obtain ⟨pulls, hp, hq⟩ := rebuildCatalog_calls W b (afterLoad W loadSubModule codecLib e)
      have hcalls : (afterAttach W loadSubModule codecLib b e).calls
          = e.calls ++ [Call.uninit, Call.loadSubModule codecLib] ++ pulls
            ++ [Call.setLocation (W.location (W.uninit w))] := by
        rw [hAL] at hp
        simp [afterAttach, hp, hSL, hAL]
      have hmid : ∀ c ∈ pulls ++ [Call.setLocation (W.location (W.uninit w))],
          c ≠ Call.init ∧ c ≠ Call.uninit := by
        intro c hc
        rcases List.mem_append.1 hc with h | h
        · exact catalogQuery_ne_lifecycle c (hq c h)
        · rw [List.mem_singleton.1 h]; exact ⟨by simp, by simp⟩
      by_cases hi : (W.init (W.setLocation b (W.location (W.uninit w)))).1 = true
      · rw [if_pos hi]
        first
          | exact Or.inl rfl
          | exact ⟨fun h => by simp at h, fun h => by
              rcases h with h | ⟨b1, hb1, hf⟩
              · simp at h
              · simp at hb1; subst hb1; simp [hi] at hf⟩
          | exact ⟨pulls ++ [Call.setLocation (W.location (W.uninit w))], hmid,
              fun _ => by simp, by simp [hcalls]⟩
          | simp [location, f2]
      · rw [if_neg hi]
        first
          | exact Or.inr f1
          | exact ⟨fun _ => Or.inr ⟨b, rfl, by simpa using hi⟩, fun _ => f1⟩
          | exact ⟨pulls ++ [Call.setLocation (W.location (W.uninit w))], hmid,
              fun _ => by simp, by simp [hcalls]⟩
          | simp [location, f2]

/-- C3 (counterexample): on a writer whose `uninit` forgets its location, a
swap performed while Playing, with the old writer holding "out.webm" before
the swap, ends in Playing with `location()` still "out.webm", but the
location set on the new writer is the empty string: among the calls of the
swap there is `setLocation("")` and no `setLocation("out.webm")`. -/
theorem codecLibUpdated_location_counterexample :
    forgetfulPlaying.state = .ElementStatePlaying
    ∧ forgetfulPlaying.m_mediaWriter.map forgetfulWriter.location = some "out.webm"
    ∧ (codecLibUpdated forgetfulWriter demoLoad "ffmpeg" forgetfulPlaying).state
        = .ElementStatePlaying
    ∧ location (codecLibUpdated forgetfulWriter demoLoad "ffmpeg" forgetfulPlaying)
        = "out.webm"
    ∧ (codecLibUpdated forgetfulWriter demoLoad "ffmpeg" forgetfulPlaying).m_mediaWriter.map
        forgetfulWriter.location = some ""
    ∧ Call.setLocation "" ∈
        (codecLibUpdated forgetfulWriter demoLoad "ffmpeg" forgetfulPlaying).calls.drop
          forgetfulPlaying.calls.length
    ∧ Call.setLocation "out.webm" ∉
        (codecLibUpdated forgetfulWriter demoLoad "ffmpeg" forgetfulPlaying).calls.drop
          forgetfulPlaying.calls.length := by
  decide

/-- C3 (amended): a back-end swap performed while the element is Playing
(hence with a writer loaded).  Afterwards the state is Playing or Null, and
it is Null exactly when the new writer cannot be loaded or its `init()`
returns false; `location()` is unchanged; the location set on the new writer
is the one the old writer reports when it is replaced, that is, after its
`uninit()`; the old writer's `uninit` is the first call of the swap, the new
writer's `init` the last, and neither occurs in between.  For an old writer
whose `uninit()` leaves its location unchanged, the location set on the new
writer is therefore the one the old writer held before the swap. -/
theorem codecLibUpdated_while_playing (codecLib : String) (e : MultiSinkElement σ) (w : σ)
    (hs : e.state = .ElementStatePlaying) (hw : e.m_mediaWriter = some w) :
    ((codecLibUpdated W loadSubModule codecLib e).state = .ElementStatePlaying
      ∨ (codecLibUpdated W loadSubModule codecLib e).state = .ElementStateNull)
    ∧ ((codecLibUpdated W loadSubModule codecLib e).state = .ElementStateNull ↔
        (loadSubModule codecLib = none
          ∨ ∃ b, loadSubModule codecLib = some b
              ∧ (W.init (W.setLocation b (W.location (W.uninit w)))).1 = false))
    ∧ location (codecLibUpdated W loadSubModule codecLib e) = location e
    ∧ (codecLibUpdated W loadSubModule codecLib e).m_mediaWriter
        = (loadSubModule codecLib).map
            (fun b => (W.init (W.setLocation b (W.location (W.uninit w)))).2)
    ∧ (∃ mid : List Call, (∀ c ∈ mid, c ≠ Call.init ∧ c ≠ Call.uninit)
        ∧ ((loadSubModule codecLib).isSome = true →
            Call.setLocation (W.location (W.uninit w)) ∈ mid)
        ∧ (codecLibUpdated W loadSubModule codecLib e).calls
            = e.calls ++ [Call.uninit, Call.loadSubModule codecLib]
              ++ (match loadSubModule codecLib with
                  | none => []
                  | some _ => mid ++ [Call.init]))
    ∧ (W.location (W.uninit w) = W.location w →
        (codecLibUpdated W loadSubModule codecLib e).m_mediaWriter
          = (loadSubModule codecLib).map
              (fun b => (W.init (W.setLocation b (W.location w))).2)
        ∧ ((loadSubModule codecLib).isSome = true →
            Call.setLocation (W.location w) ∈
              (codecLibUpdated W loadSubModule codecLib e).calls.drop e.calls.length)) := by
  obtain ⟨h1, h2, h3, h4, h5⟩ := swap_while_playing_core W loadSubModule codecLib e w hs hw
  refine ⟨h1, h2, h3, h4, h5, ?_⟩
  intro hloc
  rw [← hloc]
  refine ⟨h4, fun hsome => ?_⟩
  obtain ⟨mid, _, hm, hc⟩ := h5
  have hmem := hm hsome
  rw [hc]
  cases hload : loadSubModule codecLib with
  | none => rw [hload] at hsome; simp at hsome
  | some b =>
    simp only [List.append_assoc, List.drop_left]
    simp [hmem]

/-- Witness for the amended C3: the concrete Playing element, whose writer
keeps its location across `uninit`, is swapped to the plugin whose `init`
fails; it ends in Null with `location()` unchanged, and the new writer was
given the location "out.webm" that the old writer held before the swap. -/
theorem codecLibUpdated_while_playing_witness :
    demoPlaying.state = .ElementStatePlaying
    ∧ demoPlaying.m_mediaWriter.map demoWriter.location = some "out.webm"
    ∧ (codecLibUpdated demoWriter demoLoad "gstreamer" demoPlaying).state = .ElementStateNull
    ∧ location (codecLibUpdated demoWriter demoLoad "gstreamer" demoPlaying)
        = location demoPlaying
    ∧ Call.setLocation "out.webm" ∈
        (codecLibUpdated demoWriter demoLoad "gstreamer" demoPlaying).calls.drop
          demoPlaying.calls.length :=
  have h := codecLibUpdated_while_playing demoWriter demoLoad "gstreamer" demoPlaying
    ⟨"ffmpeg", "out.webm", true, true, [0], []⟩ (by decide) (by decide)
  ⟨by decide, by decide,
    h.2.1.2 (Or.inr ⟨⟨"gstreamer", "", false, false, [], []⟩, by decide, by decide⟩),
    h.2.2.1, (h.2.2.2.2.2 (by decide)).2 (by decide)⟩

/-- C10: a back-end swap leaves `m_inputStreams` exactly as it was, whether
or not the new writer loads, and makes no `addStream` call; so when the swap
ends in Playing with a writer, `iStream` forwards a packet whose index was
accepted before the swap to that (new) writer's `enqueuePacket`. -/
theorem codecLibUpdated_keeps_inputStreams (codecLib : String) (e : MultiSinkElement σ) :
    (codecLibUpdated W loadSubModule codecLib e).m_inputStreams = e.m_inputStreams
    ∧ (codecLibUpdated W loadSubModule codecLib e).m_mediaWriter.isSome
        = (loadSubModule codecLib).isSome
    ∧ (∃ d : List Call,
        (codecLibUpdated W loadSubModule codecLib e).calls = e.calls ++ d
        ∧ Call.loadSubModule codecLib ∈ d
        ∧ ∀ (i : Int) (caps : AkCaps) (params : QVariantMap), Call.addStream i caps params ∉ d)
    ∧ (∀ (packet : AkPacket) (b : σ),
        (codecLibUpdated W loadSubModule codecLib e).state = .ElementStatePlaying →
        (codecLibUpdated W loadSubModule codecLib e).m_mediaWriter = some b →
        packet.index ∈ e.m_inputStreams →
        (iStream W packet (codecLibUpdated W loadSubModule codecLib e)).2.calls
            = (codecLibUpdated W loadSubModule codecLib e).calls ++ [Call.enqueuePacket packet]
        ∧ (iStream W packet (codecLibUpdated W loadSubModule codecLib e)).2.m_mediaWriter
            = some (W.enqueuePacket b packet)) := by
  obtain ⟨h1, _, h3, d, hd, hload, hq⟩ := codecLibUpdated_frame W loadSubModule codecLib e
  refine ⟨h1, h3, ⟨d, hd, hload, ?_⟩, ?_⟩
  · intro i caps params hmem
    rcases hq _ hmem with h | h | h | h | h <;> simp [Call.isCatalogQuery] at h
  · intro packet b hs hb hmem
    have hmem1 : packet.index ∈ (codecLibUpdated W loadSubModule codecLib e).m_inputStreams := by
      rw [h1]; exact hmem
    simp [iStream, hs, hb, hmem1]

/-- Witness for C10: index 0 was registered on the first writer only; after a
swap that restores Playing, a packet with index 0 reaches the new writer, which
has no stream registered. -/
theorem codecLibUpdated_keeps_inputStreams_witness :
    (codecLibUpdated demoWriter demoLoad "ffmpeg" demoPlaying).m_mediaWriter
        = some ⟨"ffmpeg", "out.webm", true, true, [], []⟩
    ∧ (iStream demoWriter ⟨0, [7]⟩
        (codecLibUpdated demoWriter demoLoad "ffmpeg" demoPlaying)).2.m_mediaWriter
        = some ⟨"ffmpeg", "out.webm", true, true, [], [⟨0, [7]⟩]⟩ :=
  ⟨by decide,
   ((codecLibUpdated_keeps_inputStreams demoWriter demoLoad "ffmpeg" demoPlaying).2.2.2
      ⟨0, [7]⟩ ⟨"ffmpeg", "out.webm", true, true, [], []⟩
      (by decide) (by decide) (by decide)).2⟩

end Theorems

end MultiSink
